import Mathlib

/-!
Shallow embedding of the latency metrics aggregator of
`metrics_logger.py` (class `MetricsLogger`).

Modelling conventions:
* Python floats are modelled as rationals (`ℚ`); the only non-finite
  float the code manipulates is the `float('inf')` sentinel stored in
  `session_data['min_latency']`, modelled by the dedicated constructor
  `PyVal.inf`.
* The session dictionary `self.session_data` is an untyped Python dict;
  it is modelled as a partial map `String → Option PyVal` updated by
  `setK` (dict assignment) and `dictUpdate` (the `dict.update` call used
  for the summary overlay).
* Wall-clock reads (`datetime.now()`) and the derived session id string
  are passed in as explicit arguments.
* File I/O of the exporter is modelled by fault flags in `ExportEnv`;
  the `try/except` structure of `_save_to_excel` and
  `_save_as_csv_fallback` is made explicit with `Except`.
-/

namespace VoiceMetrics

/-- A value stored in the `session_data` dict: a number (int or float),
the `float('inf')` sentinel, a string, Python `None`, or the empty
`config` dict placeholder. -/
inductive PyVal where
  | num (q : ℚ)
  | inf
  | str (s : String)
  | pynone
  | emptyConfig
deriving DecidableEq, Repr

/-- The `session_data` dictionary, as a partial map from keys. -/
def SD : Type := String → Option PyVal

/-- Dict assignment `sd[k] = v`. -/
def setK (sd : SD) (k : String) (v : PyVal) : SD :=
  fun k' => if k' = k then some v else sd k'

/-- Read a numeric entry, as Python arithmetic on a dict entry does
(junk default 0 for states where the entry is not a number; all
reachable states store numbers at the keys this is used on). -/
def getNum (sd : SD) (k : String) : ℚ :=
  match sd k with
  | some (.num q) => q
  | _ => 0

/-- Read a string entry (used for `session_data['session_id']`). -/
def getStr (sd : SD) (k : String) : String :=
  match sd k with
  | some (.str s) => s
  | _ => ""

/-- The Python comparison `q < v` against a stored dict value that is
either a number or the `float('inf')` sentinel (used on
`min_latency`). -/
def qLtVal (q : ℚ) (v : Option PyVal) : Bool :=
  match v with
  | some (.num r) => decide (q < r)
  | some .inf => true
  | _ => false

/-- `dict.update(ov)`: fold the overlay's pairs left to right, later
pairs winning. -/
def dictUpdate (sd : SD) (ov : List (String × PyVal)) : SD :=
  ov.foldl (fun m kv => setK m kv.1 kv.2) sd

/-- One turn-metrics dict submitted to `add_turn_metrics`.  Optional
numeric fields model `metrics.get(key, 0)` returning the default when
the key is absent; `interrupted` models `metrics.get('interrupted',
False)`.  `timestamp` and `session_id` are stamped by the recorder. -/
structure Turn where
  turn_number : Option ℚ := none
  total_latency : Option ℚ := none
  eou_delay : Option ℚ := none
  ttft : Option ℚ := none
  ttfb : Option ℚ := none
  interrupted : Bool := false
  agent_response : Option String := none
  user_input : Option String := none
  timestamp : Option ℚ := none
  session_id : Option String := none
deriving DecidableEq, Repr

/-- `t.get(metric, 0)` for one of the four latency fields. -/
def getM (f : Turn → Option ℚ) (t : Turn) : ℚ := (f t).getD 0

/-- The mutable state of a `MetricsLogger` instance. -/
structure MetricsLogger where
  session_data : SD
  turn_metrics : List Turn
  session_start_time : Option ℚ

/-- The freshly constructed logger (`__init__`): empty dict, empty turn
list, no session started. -/
def MetricsLogger.init : MetricsLogger :=
  { session_data := fun _ => none, turn_metrics := [], session_start_time := none }

/-- The dict literal assigned to `self.session_data` by
`start_session` (`sid` is the strftime-formatted start time). -/
def initSD (sid : String) (t0 : ℚ) : SD := fun k =>
  if k = "session_id" then some (.str sid)
  else if k = "start_time" then some (.num t0)
  else if k = "end_time" then some .pynone
  else if k = "duration" then some .pynone
  else if k = "total_turns" then some (.num 0)
  else if k = "successful_turns" then some (.num 0)
  else if k = "interrupted_turns" then some (.num 0)
  else if k = "avg_latency" then some (.num 0)
  else if k = "avg_eou_delay" then some (.num 0)
  else if k = "avg_ttft" then some (.num 0)
  else if k = "avg_ttfb" then some (.num 0)
  else if k = "max_latency" then some (.num 0)
  else if k = "min_latency" then some .inf
  else if k = "high_latency_turns" then some (.num 0)
  else if k = "config" then some .emptyConfig
  else none

/-- `start_session`: unconditionally replaces all mutable state of the
logger; the previous state (`self`) is discarded. -/
def MetricsLogger.start_session (_ : MetricsLogger) (sid : String) (t0 : ℚ) :
    MetricsLogger :=
  { session_data := initSD sid t0
    turn_metrics := []
    session_start_time := some t0 }

/-- `add_turn_metrics(metrics)` at wall-clock instant `now`. -/
def MetricsLogger.add_turn_metrics (L : MetricsLogger) (m : Turn) (now : ℚ) :
    MetricsLogger :=
  match L.session_start_time with
  | none => L
  | some _ =>
    let m := { m with timestamp := some now
                      session_id := some (getStr L.session_data "session_id") }
    let sd := L.session_data
    let sd := setK sd "total_turns" (.num (getNum sd "total_turns" + 1))
    let sd :=
      if m.interrupted then
        setK sd "interrupted_turns" (.num (getNum sd "interrupted_turns" + 1))
      else
        setK sd "successful_turns" (.num (getNum sd "successful_turns" + 1))
    let tl := m.total_latency.getD 0
    let sd :=
      if 0 < tl then
        let sd := if getNum sd "max_latency" < tl then setK sd "max_latency" (.num tl) else sd
        let sd := if qLtVal tl (sd "min_latency") then setK sd "min_latency" (.num tl) else sd
        let sd :=
          if (2 : ℚ) < tl then
            setK sd "high_latency_turns" (.num (getNum sd "high_latency_turns" + 1))
          else sd
        sd
      else sd
    { L with session_data := sd, turn_metrics := L.turn_metrics ++ [m] }

/-- `[t.get(metric, 0) for t in ts if t.get(metric, 0) > 0]`. -/
def posVals (ts : List Turn) (f : Turn → Option ℚ) : List ℚ :=
  (ts.map (getM f)).filter (fun q => decide (0 < q))

/-- `sd[f'avg_{name}'] = sum(values) / len(values)` when `values` is
nonempty, no write otherwise (the body of the per-metric loop of
`_calculate_averages`). -/
def avgOne (sd : SD) (valid : List Turn) (name : String) (f : Turn → Option ℚ) : SD :=
  let values := posVals valid f
  if values = [] then sd
  else setK sd ("avg_" ++ name) (.num (values.sum / (values.length : ℚ)))

/-- `_calculate_averages`: averages over not-interrupted turns, one key
per metric, in source order. -/
def calculate_averages (sd : SD) (turns : List Turn) : SD :=
  let valid := turns.filter (fun t => !t.interrupted)
  if valid = [] then sd
  else
    let sd := avgOne sd valid "total_latency" Turn.total_latency
    let sd := avgOne sd valid "eou_delay" Turn.eou_delay
    let sd := avgOne sd valid "ttft" Turn.ttft
    let sd := avgOne sd valid "ttfb" Turn.ttfb
    sd

/-- `min(l)` / `max(l)` of a nonempty Python list (the guards in the
source ensure nonemptiness wherever these are applied; 0 on `[]` is the
value the guarded source expressions substitute). -/
def qmin : List ℚ → ℚ
  | [] => 0
  | q :: r => r.foldl min q

/-- See `qmin`. -/
def qmax : List ℚ → ℚ
  | [] => 0
  | q :: r => r.foldl max q

/-- One row of the Latency Analysis sheet: a Python dict with a
`Metric` key, a `Count` key, and (on the four per-metric rows only)
`Average`/`Min`/`Max` keys. -/
structure AnalysisRow where
  metricName : String
  average : Option ℚ := none
  minVal : Option ℚ := none
  maxVal : Option ℚ := none
  count : ℕ
deriving DecidableEq, Repr

/-- `_create_latency_analysis_sheet`: `none` when the sheet is not
written (no turns, or no not-interrupted turn). -/
def latencyAnalysis (turns : List Turn) : Option (List AnalysisRow) :=
  if turns = [] then none
  else
    let valid := turns.filter (fun t => !t.interrupted)
    if valid = [] then none
    else
      let latencies := posVals valid Turn.total_latency
      let eou_delays := posVals valid Turn.eou_delay
      let ttfts := posVals valid Turn.ttft
      let ttfbs := posVals valid Turn.ttfb
      let metricRows : List AnalysisRow :=
        if latencies = [] then []
        else
          [ { metricName := "Total Latency"
              average := some (latencies.sum / (latencies.length : ℚ))
              minVal := some (qmin latencies), maxVal := some (qmax latencies)
              count := latencies.length },
            { metricName := "EOU Delay"
              average := some (if eou_delays = [] then 0 else eou_delays.sum / (eou_delays.length : ℚ))
              minVal := some (if eou_delays = [] then 0 else qmin eou_delays)
              maxVal := some (if eou_delays = [] then 0 else qmax eou_delays)
              count := eou_delays.length },
            { metricName := "TTFT"
              average := some (if ttfts = [] then 0 else ttfts.sum / (ttfts.length : ℚ))
              minVal := some (if ttfts = [] then 0 else qmin ttfts)
              maxVal := some (if ttfts = [] then 0 else qmax ttfts)
              count := ttfts.length },
            { metricName := "TTFB"
              average := some (if ttfbs = [] then 0 else ttfbs.sum / (ttfbs.length : ℚ))
              minVal := some (if ttfbs = [] then 0 else qmin ttfbs)
              maxVal := some (if ttfbs = [] then 0 else qmax ttfbs)
              count := ttfbs.length } ]
      let thresholdRows : List AnalysisRow :=
        [ { metricName := "Turns > 2s latency"
            count := (latencies.filter (fun l => decide ((2 : ℚ) < l))).length },
          { metricName := "Turns > 1s latency"
            count := (latencies.filter (fun l => decide ((1 : ℚ) < l))).length },
          { metricName := "Turns < 0.5s latency"
            count := (latencies.filter (fun l => decide (l < (1/2 : ℚ)))).length } ]
      some (metricRows ++ thresholdRows)

/-- The logical content of the primary Excel artifact: the three
sheets (`Turn_Details` is written only when there are turns). -/
structure ExcelFile where
  summary_rows : List SD
  turn_sheet : Option (List Turn)
  analysis : Option (List AnalysisRow)

/-- The logical content of the two fallback CSV artifacts
(`turn_details` is written only when there are turns). -/
structure CsvArtifacts where
  session_summary : List SD
  turn_details : Option (List Turn)

/-- Fault injection for the two I/O paths. -/
structure ExportEnv where
  excelFails : Bool
  csvFails : Bool
deriving DecidableEq, Repr

/-- What `end_session`'s export produced on disk. -/
structure ExportOutput where
  excel : Option ExcelFile
  csv : Option CsvArtifacts

/-- The body of the `try` block of `_save_to_excel`: raises (models any
I/O or serialization fault) or writes the three sheets. -/
def writeExcel (sd : SD) (turns : List Turn) (env : ExportEnv) :
    Except String ExcelFile :=
  if env.excelFails then .error "excel write failed"
  else
    .ok { summary_rows := [sd]
          turn_sheet := if turns = [] then none else some turns
          analysis := latencyAnalysis turns }

/-- The body of the `try` block of `_save_as_csv_fallback`. -/
def writeCsv (sd : SD) (turns : List Turn) (env : ExportEnv) :
    Except String CsvArtifacts :=
  if env.csvFails then .error "csv write failed"
  else
    .ok { session_summary := [sd]
          turn_details := if turns = [] then none else some turns }

/-- `_save_to_excel`: on a primary failure the exception is caught,
logged, and the CSV fallback attempted; a fallback failure is caught
and logged with nothing written.  No exception escapes. -/
def save_to_excel (sd : SD) (turns : List Turn) (env : ExportEnv) : ExportOutput :=
  match writeExcel sd turns env with
  | .ok f => { excel := some f, csv := none }
  | .error _ =>
    match writeCsv sd turns env with
    | .ok c => { excel := none, csv := some c }
    | .error _ => { excel := none, csv := none }

/-- `end_session(session_summary)` at wall-clock instant `tEnd`: no-op
when no session is active; otherwise stamps end time and duration,
merges the overlay, computes averages, normalizes the `min_latency`
sentinel and triggers the exporter.  (Python skips the `update` when
`session_summary` is falsy — `None` or empty — which coincides with
folding an empty overlay list.) -/
def MetricsLogger.end_session (L : MetricsLogger) (overlay : List (String × PyVal))
    (tEnd : ℚ) (env : ExportEnv) : MetricsLogger × ExportOutput :=
  match L.session_start_time with
  | none => (L, { excel := none, csv := none })
  | some _ =>
    let sd := setK L.session_data "end_time" (.num tEnd)
    let sd := setK sd "duration" (.num (tEnd - getNum sd "start_time"))
    let sd := dictUpdate sd overlay
    let sd := if L.turn_metrics = [] then sd else calculate_averages sd L.turn_metrics
    let sd := if sd "min_latency" = some .inf then setK sd "min_latency" (.num 0) else sd
    ({ L with session_data := sd }, save_to_excel sd L.turn_metrics env)

/-- `get_average_latency`. -/
def MetricsLogger.get_average_latency (L : MetricsLogger) : ℚ :=
  let valid := L.turn_metrics.filter (fun t => !t.interrupted)
  let latencies := posVals valid Turn.total_latency
  if latencies = [] then 0 else latencies.sum / (latencies.length : ℚ)

/-- Run a sequence of `add_turn_metrics` calls (each with its
wall-clock instant). -/
def addAll (L : MetricsLogger) : List (Turn × ℚ) → MetricsLogger
  | [] => L
  | p :: rest => addAll (L.add_turn_metrics p.1 p.2) rest

/-- The record as admitted: caller's record stamped with timestamp and
session id. -/
def stamp (sid : String) (p : Turn × ℚ) : Turn :=
  { p.1 with timestamp := some p.2, session_id := some sid }

/-- The state reached by `start_session` followed by the given
`addTurn` calls. -/
def reach (sid : String) (t0 : ℚ) (ts : List (Turn × ℚ)) : MetricsLogger :=
  addAll (MetricsLogger.init.start_session sid t0) ts

/-!  Recomputed-from-history descriptions of the running aggregates. -/

/-- Maximum of a latency list with the source's initial value 0. -/
def maxQ (l : List ℚ) : ℚ := l.foldl max 0

/-- The stored `min_latency` value determined by the positive-latency
history: the `inf` sentinel while empty, the minimum afterwards. -/
def minPy : List ℚ → PyVal
  | [] => .inf
  | q :: r => .num (r.foldl min q)

/-- The not-interrupted turns of a history. -/
def validOf (hist : List Turn) : List Turn :=
  hist.filter (fun t => !t.interrupted)

theorem setK_same (sd : SD) (k : String) (v : PyVal) : setK sd k v k = some v := by
  simp [setK]

theorem setK_other (sd : SD) (k k' : String) (v : PyVal) (h : k' ≠ k) :
    setK sd k v k' = sd k' := by
  simp [setK, h]

theorem qmin_append (l : List ℚ) (x : ℚ) (h : l ≠ []) :
    qmin (l ++ [x]) = min (qmin l) x := by
  cases l with
  | nil => exact absurd rfl h
  | cons q r => simp [qmin, List.foldl_append]

theorem qmax_append (l : List ℚ) (x : ℚ) (h : l ≠ []) :
    qmax (l ++ [x]) = max (qmax l) x := by
  cases l with
  | nil => exact absurd rfl h
  | cons q r => simp [qmax, List.foldl_append]

theorem maxQ_append (l : List ℚ) (x : ℚ) : maxQ (l ++ [x]) = max (maxQ l) x := by
  simp [maxQ, List.foldl_append]

theorem posVals_append (a b : List Turn) (f : Turn → Option ℚ) :
    posVals (a ++ b) f = posVals a f ++ posVals b f := by
  simp [posVals]

theorem posVals_singleton (t : Turn) (f : Turn → Option ℚ) :
    posVals [t] f = if 0 < getM f t then [getM f t] else [] := by
  by_cases h : 0 < getM f t <;> simp [posVals, h]

theorem stamp_total_latency (sid : String) (p : Turn × ℚ) :
    (stamp sid p).total_latency = p.1.total_latency := rfl

theorem stamp_interrupted (sid : String) (p : Turn × ℚ) :
    (stamp sid p).interrupted = p.1.interrupted := rfl

/-- The state invariant relating a logger to the history of admitted
(stamped) turn records since the last `start_session sid t0`. -/
structure Inv (sid : String) (t0 : ℚ) (hist : List Turn) (L : MetricsLogger) : Prop where
  sst : L.session_start_time = some t0
  tm : L.turn_metrics = hist
  sd_tt : L.session_data "total_turns" = some (.num hist.length)
  sd_st : L.session_data "successful_turns" = some (.num (validOf hist).length)
  sd_it : L.session_data "interrupted_turns" =
    some (.num (hist.filter (fun t => t.interrupted)).length)
  sd_max : L.session_data "max_latency" =
    some (.num (maxQ (posVals hist Turn.total_latency)))
  sd_min : L.session_data "min_latency" = some (minPy (posVals hist Turn.total_latency))
  sd_high : L.session_data "high_latency_turns" =
    some (.num ((posVals hist Turn.total_latency).filter (fun q => decide ((2 : ℚ) < q))).length)
  frame : ∀ k, k ≠ "total_turns" → k ≠ "successful_turns" → k ≠ "interrupted_turns" →
    k ≠ "max_latency" → k ≠ "min_latency" → k ≠ "high_latency_turns" →
    L.session_data k = initSD sid t0 k

theorem Inv.start (sid : String) (t0 : ℚ) (L0 : MetricsLogger) :
    Inv sid t0 [] (L0.start_session sid t0) := by
  refine ⟨rfl, rfl, ?_, ?_, ?_, ?_, ?_, ?_, fun k _ _ _ _ _ _ => rfl⟩ <;> rfl

theorem add_turn_not_started (L : MetricsLogger) (m : Turn) (now : ℚ)
    (h : L.session_start_time = none) : L.add_turn_metrics m now = L := by
  unfold MetricsLogger.add_turn_metrics
  rw [h]

theorem add_turn_sst (L : MetricsLogger) (m : Turn) (now : ℚ) :
    (L.add_turn_metrics m now).session_start_time = L.session_start_time := by
  unfold MetricsLogger.add_turn_metrics
  cases hs : L.session_start_time <;> simp [hs]

theorem add_turn_tm (L : MetricsLogger) (m : Turn) (now : ℚ) (t0 : ℚ)
    (h : L.session_start_time = some t0) :
    (L.add_turn_metrics m now).turn_metrics =
      L.turn_metrics ++
        [{ m with timestamp := some now
                  session_id := some (getStr L.session_data "session_id") }] := by
  unfold MetricsLogger.add_turn_metrics
  rw [h]

theorem add_turn_frame (L : MetricsLogger) (m : Turn) (now : ℚ) (t0 : ℚ) (k : String)
    (h : L.session_start_time = some t0)
    (h1 : k ≠ "total_turns") (h2 : k ≠ "successful_turns") (h3 : k ≠ "interrupted_turns")
    (h4 : k ≠ "max_latency") (h5 : k ≠ "min_latency") (h6 : k ≠ "high_latency_turns") :
    (L.add_turn_metrics m now).session_data k = L.session_data k := by
  unfold MetricsLogger.add_turn_metrics
  rw [h]
  simp only []
  split_ifs <;> simp [setK, h1, h2, h3, h4, h5, h6]

theorem add_turn_sd_tt (L : MetricsLogger) (m : Turn) (now : ℚ) (t0 : ℚ)
    (h : L.session_start_time = some t0) :
    (L.add_turn_metrics m now).session_data "total_turns" =
      some (.num (getNum L.session_data "total_turns" + 1)) := by
  unfold MetricsLogger.add_turn_metrics
  rw [h]
  simp only []
  split_ifs <;> simp [setK]

theorem add_turn_sd_st (L : MetricsLogger) (m : Turn) (now : ℚ) (t0 : ℚ)
    (h : L.session_start_time = some t0) :
    (L.add_turn_metrics m now).session_data "successful_turns" =
      if m.interrupted then L.session_data "successful_turns"
      else some (.num (getNum L.session_data "successful_turns" + 1)) := by
  unfold MetricsLogger.add_turn_metrics
  rw [h]
  simp only []
  split_ifs <;> simp_all [setK, getNum]

theorem add_turn_sd_it (L : MetricsLogger) (m : Turn) (now : ℚ) (t0 : ℚ)
    (h : L.session_start_time = some t0) :
    (L.add_turn_metrics m now).session_data "interrupted_turns" =
      if m.interrupted then some (.num (getNum L.session_data "interrupted_turns" + 1))
      else L.session_data "interrupted_turns" := by
  unfold MetricsLogger.add_turn_metrics
  rw [h]
  simp only []
  split_ifs <;> simp_all [setK, getNum]

theorem add_turn_sd_max (L : MetricsLogger) (m : Turn) (now : ℚ) (t0 M : ℚ)
    (h : L.session_start_time = some t0)
    (hM : L.session_data "max_latency" = some (.num M)) :
    (L.add_turn_metrics m now).session_data "max_latency" =
      (if 0 < m.total_latency.getD 0 then
        (if M < m.total_latency.getD 0 then some (.num (m.total_latency.getD 0))
         else some (.num M))
       else some (.num M)) := by
  unfold MetricsLogger.add_turn_metrics
  rw [h]
  simp only []
  split_ifs <;> simp_all [setK, getNum]

theorem add_turn_sd_min (L : MetricsLogger) (m : Turn) (now : ℚ) (t0 : ℚ) (v : PyVal)
    (h : L.session_start_time = some t0)
    (hv : L.session_data "min_latency" = some v) :
    (L.add_turn_metrics m now).session_data "min_latency" =
      (if 0 < m.total_latency.getD 0 then
        (if qLtVal (m.total_latency.getD 0) (some v) then
           some (.num (m.total_latency.getD 0))
         else some v)
       else some v) := by
  unfold MetricsLogger.add_turn_metrics
  rw [h]
  simp only []
  split_ifs <;> simp_all [setK, getNum]

theorem add_turn_sd_high (L : MetricsLogger) (m : Turn) (now : ℚ) (t0 H : ℚ)
    (h : L.session_start_time = some t0)
    (hH : L.session_data "high_latency_turns" = some (.num H)) :
    (L.add_turn_metrics m now).session_data "high_latency_turns" =
      (if 0 < m.total_latency.getD 0 then
        (if (2 : ℚ) < m.total_latency.getD 0 then some (.num (H + 1)) else some (.num H))
       else some (.num H)) := by
  unfold MetricsLogger.add_turn_metrics
  rw [h]
  simp only []
  split_ifs <;> simp_all [setK, getNum]

theorem minPy_step (P : List ℚ) (tl : ℚ) :
    (if qLtVal tl (some (minPy P)) then some (PyVal.num tl) else some (minPy P)) =
      some (minPy (P ++ [tl])) := by
  cases P with
  | nil => simp [minPy, qLtVal]
  | cons q r =>
    simp only [minPy, qLtVal, List.cons_append, List.foldl_append, List.foldl_cons,
      List.foldl_nil, decide_eq_true_eq]
    by_cases hlt : tl < r.foldl min q
    · simp [hlt, min_eq_right hlt.le]
    · simp [hlt, min_eq_left (not_lt.mp hlt)]

theorem Inv.step {sid : String} {t0 : ℚ} {hist : List Turn} {L : MetricsLogger}
    (h : Inv sid t0 hist L) (m : Turn) (now : ℚ) :
    Inv sid t0 (hist ++ [stamp sid (m, now)]) (L.add_turn_metrics m now) := by
  have hs : L.session_data "session_id" = some (.str sid) := by
    rw [h.frame "session_id" (by decide) (by decide) (by decide) (by decide) (by decide)
      (by decide)]
    rfl
  have hsid : getStr L.session_data "session_id" = sid := by simp [getStr, hs]
  refine ⟨?_, ?_, ?_, ?_, ?_, ?_, ?_, ?_, ?_⟩
  · rw [add_turn_sst]; exact h.sst
  · rw [add_turn_tm L m now t0 h.sst, h.tm, hsid]; rfl
  · rw [add_turn_sd_tt L m now t0 h.sst]
    simp [getNum, h.sd_tt, List.length_append]
  · rw [add_turn_sd_st L m now t0 h.sst]
    by_cases hi : m.interrupted <;>
      simp [hi, getNum, h.sd_st, validOf, List.filter_append, stamp]
  · rw [add_turn_sd_it L m now t0 h.sst]
    by_cases hi : m.interrupted <;>
      simp [hi, getNum, h.sd_it, List.filter_append, stamp]
  · rw [add_turn_sd_max L m now t0 (maxQ (posVals hist Turn.total_latency)) h.sst h.sd_max]
    rw [posVals_append, posVals_singleton]
    have hgm : getM Turn.total_latency (stamp sid (m, now)) = m.total_latency.getD 0 := rfl
    rw [hgm]
    by_cases h0 : 0 < m.total_latency.getD 0
    · rw [if_pos h0, if_pos h0, maxQ_append]
      by_cases hlt : maxQ (posVals hist Turn.total_latency) < m.total_latency.getD 0
      · rw [if_pos hlt, max_eq_right hlt.le]
      · rw [if_neg hlt, max_eq_left (not_lt.mp hlt)]
    · rw [if_neg h0, if_neg h0, List.append_nil]
  · rw [add_turn_sd_min L m now t0 (minPy (posVals hist Turn.total_latency)) h.sst h.sd_min]
    rw [posVals_append, posVals_singleton]
    have hgm : getM Turn.total_latency (stamp sid (m, now)) = m.total_latency.getD 0 := rfl
    rw [hgm]
    by_cases h0 : 0 < m.total_latency.getD 0
    · rw [if_pos h0, if_pos h0, minPy_step]
    · rw [if_neg h0, if_neg h0, List.append_nil]
  · rw [add_turn_sd_high L m now t0
      ((posVals hist Turn.total_latency).filter (fun q => decide ((2 : ℚ) < q))).length
      h.sst h.sd_high]
    rw [posVals_append, posVals_singleton]
    have hgm : getM Turn.total_latency (stamp sid (m, now)) = m.total_latency.getD 0 := rfl
    rw [hgm]
    by_cases h0 : 0 < m.total_latency.getD 0
    · rw [if_pos h0, if_pos h0]
      by_cases h2 : (2 : ℚ) < m.total_latency.getD 0
      · rw [if_pos h2]
        simp [List.filter_append, h2]
      · rw [if_neg h2]
        simp [List.filter_append, h2]
    · rw [if_neg h0, if_neg h0, List.append_nil]
  · intro k k1 k2 k3 k4 k5 k6
    rw [add_turn_frame L m now t0 k h.sst k1 k2 k3 k4 k5 k6]
    exact h.frame k k1 k2 k3 k4 k5 k6

theorem Inv.addAll {sid : String} {t0 : ℚ} {hist : List Turn} {L : MetricsLogger}
    (h : Inv sid t0 hist L) (ts : List (Turn × ℚ)) :
    Inv sid t0 (hist ++ ts.map (stamp sid)) (VoiceMetrics.addAll L ts) := by
  induction ts generalizing hist L with
  | nil => simpa [VoiceMetrics.addAll] using h
  | cons p rest ih =>
    have := ih (h.step p.1 p.2)
    simpa [VoiceMetrics.addAll, List.append_assoc] using this

theorem inv_reach (sid : String) (t0 : ℚ) (ts : List (Turn × ℚ)) :
    Inv sid t0 (ts.map (stamp sid)) (reach sid t0 ts) := by
  have := (Inv.start sid t0 MetricsLogger.init).addAll ts
  simpa [reach] using this

theorem foldl_max_init_le (r : List ℚ) (q : ℚ) : q ≤ r.foldl max q := by
  induction r generalizing q with
  | nil => exact le_refl q
  | cons a r ih => exact le_trans (le_max_left q a) (ih (max q a))

theorem foldl_max_le_of_mem (r : List ℚ) (q x : ℚ) (hx : x ∈ r) : x ≤ r.foldl max q := by
  induction r generalizing q with
  | nil => cases hx
  | cons a r ih =>
    rcases List.mem_cons.mp hx with rfl | hx
    · exact le_trans (le_max_right q x) (foldl_max_init_le r (max q x))
    · exact ih (max q a) hx

theorem foldl_max_mem (r : List ℚ) (q : ℚ) : r.foldl max q = q ∨ r.foldl max q ∈ r := by
  induction r generalizing q with
  | nil => exact Or.inl rfl
  | cons a r ih =>
    rcases ih (max q a) with h | h
    · rcases max_cases q a with ⟨he, _⟩ | ⟨he, _⟩
      · rw [List.foldl_cons, h, he]; exact Or.inl rfl
      · rw [List.foldl_cons, h, he]; exact Or.inr (List.mem_cons_self _ _)
    · exact Or.inr (List.mem_cons_of_mem a h)

theorem foldl_min_le_init (r : List ℚ) (q : ℚ) : r.foldl min q ≤ q := by
  induction r generalizing q with
  | nil => exact le_refl q
  | cons a r ih => exact le_trans (ih (min q a)) (min_le_left q a)

theorem foldl_min_le_of_mem (r : List ℚ) (q x : ℚ) (hx : x ∈ r) : r.foldl min q ≤ x := by
  induction r generalizing q with
  | nil => cases hx
  | cons a r ih =>
    rcases List.mem_cons.mp hx with rfl | hx
    · exact le_trans (foldl_min_le_init r (min q x)) (min_le_right q x)
    · exact ih (min q a) hx

theorem foldl_min_mem (r : List ℚ) (q : ℚ) : r.foldl min q = q ∨ r.foldl min q ∈ r := by
  induction r generalizing q with
  | nil => exact Or.inl rfl
  | cons a r ih =>
    rcases ih (min q a) with h | h
    · rcases min_cases q a with ⟨he, _⟩ | ⟨he, _⟩
      · rw [List.foldl_cons, h, he]; exact Or.inl rfl
      · rw [List.foldl_cons, h, he]; exact Or.inr (List.mem_cons_self _ _)
    · exact Or.inr (List.mem_cons_of_mem a h)

theorem qmax_mem (l : List ℚ) (h : l ≠ []) : qmax l ∈ l := by
  cases l with
  | nil => exact absurd rfl h
  | cons q r =>
    rcases foldl_max_mem r q with he | he
    · rw [qmax, he]; exact List.mem_cons_self _ _
    · exact List.mem_cons_of_mem q (by rw [qmax]; exact he)

theorem le_qmax_of_mem (l : List ℚ) (x : ℚ) (hx : x ∈ l) : x ≤ qmax l := by
  cases l with
  | nil => cases hx
  | cons q r =>
    rcases List.mem_cons.mp hx with rfl | hx
    · exact foldl_max_init_le r x
    · exact foldl_max_le_of_mem r q x hx

theorem qmin_mem (l : List ℚ) (h : l ≠ []) : qmin l ∈ l := by
  cases l with
  | nil => exact absurd rfl h
  | cons q r =>
    rcases foldl_min_mem r q with he | he
    · rw [qmin, he]; exact List.mem_cons_self _ _
    · exact List.mem_cons_of_mem q (by rw [qmin]; exact he)

theorem qmin_le_of_mem (l : List ℚ) (x : ℚ) (hx : x ∈ l) : qmin l ≤ x := by
  cases l with
  | nil => cases hx
  | cons q r =>
    rcases List.mem_cons.mp hx with rfl | hx
    · exact foldl_min_le_init r x
    · exact foldl_min_le_of_mem r q x hx

theorem posVals_pos (ts : List Turn) (f : Turn → Option ℚ) (x : ℚ)
    (hx : x ∈ posVals ts f) : 0 < x := by
  have := List.of_mem_filter hx
  simpa using this

theorem maxQ_eq_qmax (l : List ℚ) (h : l ≠ []) (hpos : ∀ x ∈ l, 0 < x) :
    maxQ l = qmax l := by
  cases l with
  | nil => exact absurd rfl h
  | cons q r =>
    have h0 : max 0 q = q :=
      max_eq_right (hpos q (List.mem_cons_self _ _)).le
    rw [maxQ, qmax, List.foldl_cons, h0]

theorem minPy_eq_num_qmin (l : List ℚ) (h : l ≠ []) : minPy l = .num (qmin l) := by
  cases l with
  | nil => exact absurd rfl h
  | cons q r => rfl

/-- The positive `total_latency` values of the records submitted to
`addTurn` (order preserved, interrupted turns included). -/
def submittedTL (ts : List (Turn × ℚ)) : List ℚ :=
  posVals (ts.map Prod.fst) Turn.total_latency

theorem posVals_stamp (sid : String) (ts : List (Turn × ℚ)) (f : Turn → Option ℚ)
    (hf : ∀ p : Turn × ℚ, f (stamp sid p) = f p.1) :
    posVals (ts.map (stamp sid)) f = posVals (ts.map Prod.fst) f := by
  unfold posVals
  rw [List.map_map, List.map_map]
  congr 1
  apply List.map_congr_left
  intro p _
  simp [getM, Function.comp, hf p]

theorem submittedTL_eq_stamped (sid : String) (ts : List (Turn × ℚ)) :
    posVals (ts.map (stamp sid)) Turn.total_latency = submittedTL ts :=
  posVals_stamp sid ts Turn.total_latency (fun _ => rfl)

/-- C1: after `start()` and any sequence of `addTurn` calls, the running
aggregates equal their recomputed-from-history values: `max_latency` is
the maximum and `min_latency` the minimum of all strictly positive
submitted `total_latency` values (interrupted turns counted too), and
`high_latency_turns` counts those values strictly greater than 2.0
seconds. -/
theorem running_aggregates (sid : String) (t0 : ℚ) (ts : List (Turn × ℚ))
    (hP : submittedTL ts ≠ []) :
    ∃ M mn : ℚ,
      (reach sid t0 ts).session_data "max_latency" = some (.num M) ∧
      M ∈ submittedTL ts ∧ (∀ x ∈ submittedTL ts, x ≤ M) ∧
      (reach sid t0 ts).session_data "min_latency" = some (.num mn) ∧
      mn ∈ submittedTL ts ∧ (∀ x ∈ submittedTL ts, mn ≤ x) ∧
      (reach sid t0 ts).session_data "high_latency_turns" =
        some (.num (((submittedTL ts).filter (fun q => decide ((2 : ℚ) < q))).length)) := by
  have h := inv_reach sid t0 ts
  have hst := submittedTL_eq_stamped sid ts
  refine ⟨qmax (submittedTL ts), qmin (submittedTL ts), ?_, ?_, ?_, ?_, ?_, ?_, ?_⟩
  · rw [h.sd_max, hst, maxQ_eq_qmax _ hP (fun x hx => posVals_pos _ _ x hx)]
  · exact qmax_mem _ hP
  · exact fun x hx => le_qmax_of_mem _ x hx
  · rw [h.sd_min, hst, minPy_eq_num_qmin _ hP]
  · exact qmin_mem _ hP
  · exact fun x hx => qmin_le_of_mem _ x hx
  · rw [h.sd_high, hst]

/-- A concrete session: a 1-second successful turn and a 3-second
interrupted turn (the latter exercises extremes tracking of
interrupted turns and the 2-second threshold counter). -/
def demoTurns : List (Turn × ℚ) :=
  [({ total_latency := some 1 }, 10),
   ({ total_latency := some 3, interrupted := true }, 20)]

theorem running_aggregates_witness :
    submittedTL demoTurns ≠ [] ∧
    ∃ M mn : ℚ,
      (reach "s" 0 demoTurns).session_data "max_latency" = some (.num M) ∧
      M ∈ submittedTL demoTurns ∧ (∀ x ∈ submittedTL demoTurns, x ≤ M) ∧
      (reach "s" 0 demoTurns).session_data "min_latency" = some (.num mn) ∧
      mn ∈ submittedTL demoTurns ∧ (∀ x ∈ submittedTL demoTurns, mn ≤ x) ∧
      (reach "s" 0 demoTurns).session_data "high_latency_turns" =
        some (.num (((submittedTL demoTurns).filter (fun q => decide ((2 : ℚ) < q))).length)) :=
  ⟨by decide, running_aggregates "s" 0 demoTurns (by decide)⟩

theorem length_valid_add_length_interrupted (l : List Turn) :
    (validOf l).length + (l.filter (fun t => t.interrupted)).length = l.length := by
  induction l with
  | nil => rfl
  | cons a r ih =>
    by_cases hi : a.interrupted <;> simp [validOf, hi] at ih ⊢ <;> omega

/-- C4: in every state reachable after `start()`,
`successful_turns + interrupted_turns = total_turns`; each `addTurn`
increments `total_turns` by one and exactly one of the other two
counters, according to the record's `interrupted` flag. -/
theorem counter_equation (sid : String) (t0 : ℚ) (ts : List (Turn × ℚ))
    (m : Turn) (now : ℚ) :
    getNum (reach sid t0 ts).session_data "successful_turns" +
        getNum (reach sid t0 ts).session_data "interrupted_turns" =
      getNum (reach sid t0 ts).session_data "total_turns" ∧
    getNum ((reach sid t0 ts).add_turn_metrics m now).session_data "total_turns" =
      getNum (reach sid t0 ts).session_data "total_turns" + 1 ∧
    getNum ((reach sid t0 ts).add_turn_metrics m now).session_data "interrupted_turns" =
      getNum (reach sid t0 ts).session_data "interrupted_turns" +
        (if m.interrupted then 1 else 0) ∧
    getNum ((reach sid t0 ts).add_turn_metrics m now).session_data "successful_turns" =
      getNum (reach sid t0 ts).session_data "successful_turns" +
        (if m.interrupted then 0 else 1) := by
  have h := inv_reach sid t0 ts
  refine ⟨?_, ?_, ?_, ?_⟩
  · have hn : (validOf (ts.map (stamp sid))).length +
        ((ts.map (stamp sid)).filter (fun t => t.interrupted)).length =
        (ts.map (stamp sid)).length :=
      length_valid_add_length_interrupted (ts.map (stamp sid))
    simp only [getNum, h.sd_st, h.sd_it, h.sd_tt]
    exact_mod_cast hn
  · simp only [getNum, add_turn_sd_tt _ m now t0 h.sst]
  · by_cases hi : m.interrupted <;>
      simp [getNum, add_turn_sd_it _ m now t0 h.sst, hi]
  · by_cases hi : m.interrupted <;>
      simp [getNum, add_turn_sd_st _ m now t0 h.sst, hi]

/-- C5: calling `addTurn` before `start()` leaves the logger completely
unchanged (no record appended, no counter or aggregate touched) and, the
operation being a total function, no exception is raised. -/
theorem add_turn_before_start (L : MetricsLogger) (m : Turn) (now : ℚ)
    (h : L.session_start_time = none) :
    L.add_turn_metrics m now = L :=
  add_turn_not_started L m now h

theorem add_turn_before_start_witness :
    MetricsLogger.init.session_start_time = none ∧
      MetricsLogger.init.add_turn_metrics {} 0 = MetricsLogger.init :=
  ⟨rfl, add_turn_before_start MetricsLogger.init {} 0 rfl⟩

/-- C10: `start_session` on an already-active session unconditionally
discards the previous session (the result does not depend on the prior
state, and the prior state is neither exported nor kept — the operation
returns only the fresh logger), resets all counters and aggregates,
clears the turn sequence, and installs the fresh session id and start
time. -/
theorem start_session_discards (L1 L2 : MetricsLogger) (sid : String) (t0 : ℚ) :
    L1.start_session sid t0 = L2.start_session sid t0 ∧
    (L1.start_session sid t0).turn_metrics = [] ∧
    (L1.start_session sid t0).session_start_time = some t0 ∧
    (L1.start_session sid t0).session_data "session_id" = some (.str sid) ∧
    (L1.start_session sid t0).session_data "start_time" = some (.num t0) ∧
    (L1.start_session sid t0).session_data "total_turns" = some (.num 0) ∧
    (L1.start_session sid t0).session_data "successful_turns" = some (.num 0) ∧
    (L1.start_session sid t0).session_data "interrupted_turns" = some (.num 0) ∧
    (L1.start_session sid t0).session_data "max_latency" = some (.num 0) ∧
    (L1.start_session sid t0).session_data "min_latency" = some .inf ∧
    (L1.start_session sid t0).session_data "high_latency_turns" = some (.num 0) :=
  ⟨rfl, rfl, rfl, rfl, rfl, rfl, rfl, rfl, rfl, rfl, rfl⟩

/-- The value an overlay dict associates to a key (later pairs win),
`none` when the key is absent. -/
def ovLookup : List (String × PyVal) → String → Option PyVal
  | [], _ => none
  | kv :: rest, k =>
    match ovLookup rest k with
    | some v => some v
    | none => if k = kv.1 then some kv.2 else none

theorem dictUpdate_lookup (ov : List (String × PyVal)) (sd : SD) (k : String) :
    dictUpdate sd ov k =
      match ovLookup ov k with
      | some v => some v
      | none => sd k := by
  induction ov generalizing sd with
  | nil => rfl
  | cons kv rest ih =>
    show dictUpdate (setK sd kv.1 kv.2) rest k = _
    rw [ih]
    by_cases hk : k = kv.1
    · subst hk
      rcases hr : ovLookup rest kv.1 with _ | v <;> simp [ovLookup, hr, setK]
    · rcases hr : ovLookup rest k with _ | v <;> simp [ovLookup, hr, setK, hk]

theorem ovLookup_none (ov : List (String × PyVal)) (k : String)
    (h : ∀ p ∈ ov, p.1 ≠ k) : ovLookup ov k = none := by
  induction ov with
  | nil => rfl
  | cons kv rest ih =>
    have hk : k ≠ kv.1 := fun he => h kv (List.mem_cons_self _ _) he.symm
    simp [ovLookup, ih (fun p hp => h p (List.mem_cons_of_mem _ hp)), hk]

theorem avg_append_tl : ("avg_" ++ "total_latency" : String) = "avg_total_latency" := rfl

theorem avg_append_eou : ("avg_" ++ "eou_delay" : String) = "avg_eou_delay" := rfl

theorem avg_append_ttft : ("avg_" ++ "ttft" : String) = "avg_ttft" := rfl

theorem avg_append_ttfb : ("avg_" ++ "ttfb" : String) = "avg_ttfb" := rfl

/-- `sum(values)/len(values)` with the 0 default for an empty set. -/
def qavg (l : List ℚ) : ℚ := if l = [] then 0 else l.sum / (l.length : ℚ)

theorem avgOne_other (sd : SD) (valid : List Turn) (name : String)
    (f : Turn → Option ℚ) (k : String) (h : k ≠ "avg_" ++ name) :
    avgOne sd valid name f k = sd k := by
  unfold avgOne
  split_ifs <;> simp [setK, h]

theorem avgOne_same (sd : SD) (valid : List Turn) (name : String)
    (f : Turn → Option ℚ) :
    avgOne sd valid name f ("avg_" ++ name) =
      (if posVals valid f = [] then sd ("avg_" ++ name)
       else some (.num (qavg (posVals valid f)))) := by
  unfold avgOne
  split_ifs with h <;> simp [setK, qavg, h]

theorem calc_frame (sd : SD) (turns : List Turn) (k : String)
    (h1 : k ≠ "avg_total_latency") (h2 : k ≠ "avg_eou_delay")
    (h3 : k ≠ "avg_ttft") (h4 : k ≠ "avg_ttfb") :
    calculate_averages sd turns k = sd k := by
  unfold calculate_averages
  simp only []
  split_ifs with hv
  · rfl
  · rw [avgOne_other _ _ "ttfb" _ k (by rw [avg_append_ttfb]; exact h4),
      avgOne_other _ _ "ttft" _ k (by rw [avg_append_ttft]; exact h3),
      avgOne_other _ _ "eou_delay" _ k (by rw [avg_append_eou]; exact h2),
      avgOne_other _ _ "total_latency" _ k (by rw [avg_append_tl]; exact h1)]

theorem calc_lookup_tl (sd : SD) (turns : List Turn) :
    calculate_averages sd turns "avg_total_latency" =
      (if posVals (turns.filter (fun t => !t.interrupted)) Turn.total_latency = [] then
        sd "avg_total_latency"
       else
        some (.num (qavg (posVals (turns.filter (fun t => !t.interrupted)) Turn.total_latency)))) := by
  unfold calculate_averages
  simp only []
  split_ifs with hv hp hp
  · rfl
  · exact absurd (by rw [hv]; rfl) hp
  · rw [avgOne_other _ _ "ttfb" _ "avg_total_latency" (by decide),
      avgOne_other _ _ "ttft" _ "avg_total_latency" (by decide),
      avgOne_other _ _ "eou_delay" _ "avg_total_latency" (by decide),
      ← avg_append_tl, avgOne_same, if_pos hp]
  · rw [avgOne_other _ _ "ttfb" _ "avg_total_latency" (by decide),
      avgOne_other _ _ "ttft" _ "avg_total_latency" (by decide),
      avgOne_other _ _ "eou_delay" _ "avg_total_latency" (by decide),
      ← avg_append_tl, avgOne_same, if_neg hp]

theorem calc_lookup_eou (sd : SD) (turns : List Turn) :
    calculate_averages sd turns "avg_eou_delay" =
      (if posVals (turns.filter (fun t => !t.interrupted)) Turn.eou_delay = [] then
        sd "avg_eou_delay"
       else
        some (.num (qavg (posVals (turns.filter (fun t => !t.interrupted)) Turn.eou_delay)))) := by
  unfold calculate_averages
  simp only []
  split_ifs with hv hp hp
  · rfl
  · exact absurd (by rw [hv]; rfl) hp
  · rw [avgOne_other _ _ "ttfb" _ "avg_eou_delay" (by decide),
      avgOne_other _ _ "ttft" _ "avg_eou_delay" (by decide),
      ← avg_append_eou, avgOne_same, if_pos hp,
      avgOne_other _ _ "total_latency" _ ("avg_" ++ "eou_delay") (by decide)]
  · rw [avgOne_other _ _ "ttfb" _ "avg_eou_delay" (by decide),
      avgOne_other _ _ "ttft" _ "avg_eou_delay" (by decide),
      ← avg_append_eou, avgOne_same, if_neg hp]

theorem calc_lookup_ttft (sd : SD) (turns : List Turn) :
    calculate_averages sd turns "avg_ttft" =
      (if posVals (turns.filter (fun t => !t.interrupted)) Turn.ttft = [] then
        sd "avg_ttft"
       else
        some (.num (qavg (posVals (turns.filter (fun t => !t.interrupted)) Turn.ttft)))) := by
  unfold calculate_averages
  simp only []
  split_ifs with hv hp hp
  · rfl
  · exact absurd (by rw [hv]; rfl) hp
  · rw [avgOne_other _ _ "ttfb" _ "avg_ttft" (by decide),
      ← avg_append_ttft, avgOne_same, if_pos hp,
      avgOne_other _ _ "eou_delay" _ ("avg_" ++ "ttft") (by decide),
      avgOne_other _ _ "total_latency" _ ("avg_" ++ "ttft") (by decide)]
  · rw [avgOne_other _ _ "ttfb" _ "avg_ttft" (by decide),
      ← avg_append_ttft, avgOne_same, if_neg hp]

theorem calc_lookup_ttfb (sd : SD) (turns : List Turn) :
    calculate_averages sd turns "avg_ttfb" =
      (if posVals (turns.filter (fun t => !t.interrupted)) Turn.ttfb = [] then
        sd "avg_ttfb"
       else
        some (.num (qavg (posVals (turns.filter (fun t => !t.interrupted)) Turn.ttfb)))) := by
  unfold calculate_averages
  simp only []
  split_ifs with hv hp hp
  · rfl
  · exact absurd (by rw [hv]; rfl) hp
  · rw [← avg_append_ttfb, avgOne_same, if_pos hp,
      avgOne_other _ _ "ttft" _ ("avg_" ++ "ttfb") (by decide),
      avgOne_other _ _ "eou_delay" _ ("avg_" ++ "ttfb") (by decide),
      avgOne_other _ _ "total_latency" _ ("avg_" ++ "ttfb") (by decide)]
  · rw [← avg_append_ttfb, avgOne_same, if_neg hp]

/-- Lookup of a key other than `min_latency` is unaffected by the
sentinel normalization at the end of `end_session`. -/
theorem minfix_other (sd3 : SD) (k : String) (h : k ≠ "min_latency") :
    (if sd3 "min_latency" = some PyVal.inf then setK sd3 "min_latency" (.num 0) else sd3) k
      = sd3 k := by
  split_ifs <;> simp [setK, h]

/-- The not-interrupted records among the submitted ones. -/
def validSubmitted (ts : List (Turn × ℚ)) : List Turn :=
  (ts.map Prod.fst).filter (fun t => !t.interrupted)

theorem posVals_valid_stamped (sid : String) (ts : List (Turn × ℚ))
    (f : Turn → Option ℚ) (hf : ∀ p : Turn × ℚ, f (stamp sid p) = f p.1) :
    posVals ((ts.map (stamp sid)).filter (fun t => !t.interrupted)) f =
      posVals (validSubmitted ts) f := by
  unfold validSubmitted
  rw [List.filter_map, List.filter_map]
  have hs : ((fun t => !t.interrupted) ∘ stamp sid) =
      ((fun t : Turn => !t.interrupted) ∘ Prod.fst) := rfl
  rw [hs]
  exact posVals_stamp sid (ts.filter ((fun t : Turn => !t.interrupted) ∘ Prod.fst)) f hf

/-- The session dict after `end_session`'s `end_time`/`duration` stamps
and overlay merge, before averages and the sentinel fix. -/
def endPre (L : MetricsLogger) (tEnd : ℚ) (ov : List (String × PyVal)) : SD :=
  dictUpdate (setK (setK L.session_data "end_time" (.num tEnd)) "duration"
    (.num (tEnd - getNum (setK L.session_data "end_time" (.num tEnd)) "start_time"))) ov

theorem end_session_eq (L : MetricsLogger) (ov : List (String × PyVal)) (tEnd : ℚ)
    (env : ExportEnv) (t0 : ℚ) (h : L.session_start_time = some t0) :
    L.end_session ov tEnd env =
      (let sd3 := if L.turn_metrics = [] then endPre L tEnd ov
                  else calculate_averages (endPre L tEnd ov) L.turn_metrics
       let sd4 := if sd3 "min_latency" = some PyVal.inf then
                    setK sd3 "min_latency" (.num 0)
                  else sd3
       ({ L with session_data := sd4 }, save_to_excel sd4 L.turn_metrics env)) := by
  unfold MetricsLogger.end_session endPre
  rw [h]

/-- After the `end_time`/`duration` writes and an overlay merge that
avoids the key, a key's entry is the pre-`end_session` one. -/
theorem endPre_lookup (L : MetricsLogger) (tEnd : ℚ) (ov : List (String × PyVal))
    (k : String) (hov : ovLookup ov k = none)
    (hk1 : k ≠ "end_time") (hk2 : k ≠ "duration") :
    endPre L tEnd ov k = L.session_data k := by
  rw [endPre, dictUpdate_lookup, hov]
  rw [setK_other _ _ _ _ hk2, setK_other _ _ _ _ hk1]

/-- A key set by the overlay holds the overlay's value after the merge. -/
theorem endPre_overlay (L : MetricsLogger) (tEnd : ℚ) (ov : List (String × PyVal))
    (k : String) (v : PyVal) (hk : ovLookup ov k = some v) :
    endPre L tEnd ov k = some v := by
  rw [endPre, dictUpdate_lookup, hk]

/-- C3 (amended): an overlay entry passed to `end()` overwrites the
session state for its key and survives into the final state for every
key except the four `avg_*` average fields and `min_latency`, which
`end()` may recompute after the merge. -/
theorem overlay_overwrites (sid : String) (t0 tEnd : ℚ) (ts : List (Turn × ℚ))
    (ov : List (String × PyVal)) (env : ExportEnv) (k : String) (v : PyVal)
    (hk : ovLookup ov k = some v)
    (h1 : k ≠ "avg_total_latency") (h2 : k ≠ "avg_eou_delay") (h3 : k ≠ "avg_ttft")
    (h4 : k ≠ "avg_ttfb") (h5 : k ≠ "min_latency") :
    ((reach sid t0 ts).end_session ov tEnd env).1.session_data k = some v := by
  have h := inv_reach sid t0 ts
  rw [end_session_eq _ _ _ _ t0 h.sst]
  simp only []
  rw [minfix_other _ k h5]
  split_ifs with ht
  · exact endPre_overlay _ _ _ _ _ hk
  · rw [calc_frame _ _ k h1 h2 h3 h4]
    exact endPre_overlay _ _ _ _ _ hk

theorem overlay_overwrites_witness :
    ovLookup [("total_turns", PyVal.num 999)] "total_turns" = some (PyVal.num 999) ∧
    ((reach "s" 0 [({ total_latency := some 1 }, 1), ({ total_latency := some 2 }, 2)]).end_session
        [("total_turns", PyVal.num 999)] 9 ⟨false, false⟩).1.session_data "total_turns" =
      some (PyVal.num 999) :=
  ⟨rfl, overlay_overwrites "s" 0 9
    [({ total_latency := some 1 }, 1), ({ total_latency := some 2 }, 2)]
    [("total_turns", PyVal.num 999)] ⟨false, false⟩ "total_turns" (PyVal.num 999) rfl
    (by decide) (by decide) (by decide) (by decide) (by decide)⟩

/-- C3 counterexample: the claim fails for the key `min_latency` — an
overlay entry `min_latency = inf` is normalized away by `end()`, so the
final state does not map the key to the overlay's value. -/
theorem overlay_min_latency_clobbered :
    ((MetricsLogger.init.start_session "s" 0).end_session [("min_latency", PyVal.inf)] 7
        ⟨false, false⟩).1.session_data "min_latency" = some (.num 0) ∧
    ((MetricsLogger.init.start_session "s" 0).end_session [("min_latency", PyVal.inf)] 7
        ⟨false, false⟩).1.session_data "min_latency" ≠ some PyVal.inf := by
  constructor <;> decide

/-- C6: after `end()` (with an overlay that does not itself bind
`min_latency`), the final `min_latency` is a finite, non-negative
number: the infinity sentinel is normalized to exactly 0 when no
strictly positive `total_latency` was ever observed, and otherwise the
field holds the (positive) minimum. -/
theorem min_latency_finite (sid : String) (t0 tEnd : ℚ) (ts : List (Turn × ℚ))
    (ov : List (String × PyVal)) (env : ExportEnv)
    (hov : ∀ p ∈ ov, p.1 ≠ "min_latency") :
    ∃ q : ℚ,
      ((reach sid t0 ts).end_session ov tEnd env).1.session_data "min_latency"
          = some (.num q) ∧
      0 ≤ q ∧ (submittedTL ts = [] → q = 0) := by
  have h := inv_reach sid t0 ts
  rw [end_session_eq _ _ _ _ t0 h.sst]
  simp only []
  have hpre : endPre (reach sid t0 ts) tEnd ov "min_latency"
      = some (minPy (submittedTL ts)) := by
    rw [endPre_lookup _ _ _ _ (ovLookup_none ov _ hov) (by decide) (by decide), h.sd_min,
      submittedTL_eq_stamped]
  have hmin : (if (reach sid t0 ts).turn_metrics = [] then endPre (reach sid t0 ts) tEnd ov
      else calculate_averages (endPre (reach sid t0 ts) tEnd ov)
        (reach sid t0 ts).turn_metrics) "min_latency" = some (minPy (submittedTL ts)) := by
    split_ifs with ht
    · exact hpre
    · rw [calc_frame _ _ _ (by decide) (by decide) (by decide) (by decide)]
      exact hpre
  by_cases hc : minPy (submittedTL ts) = PyVal.inf
  · rw [if_pos (by rw [hmin, hc])]
    exact ⟨0, by rw [setK_same], le_refl 0, fun _ => rfl⟩
  · rw [if_neg (by rw [hmin]; exact fun hEq => hc (Option.some.inj hEq))]
    rw [hmin]
    rcases hsub : submittedTL ts with _ | ⟨q0, P⟩
    · exact absurd (by rw [hsub]; rfl) hc
    · refine ⟨qmin (q0 :: P), rfl, ?_, ?_⟩
      · have hmem : qmin (q0 :: P) ∈ submittedTL ts := by
          rw [hsub]
          exact qmin_mem _ (by simp)
        exact (posVals_pos _ _ _ hmem).le
      · exact fun hE => absurd hE (List.cons_ne_nil _ _)

theorem min_latency_finite_witness :
    (∀ p ∈ ([] : List (String × PyVal)), p.1 ≠ "min_latency") ∧
    ∃ q : ℚ,
      ((reach "s" 0 []).end_session [] 4 ⟨false, false⟩).1.session_data "min_latency"
          = some (.num q) ∧
      0 ≤ q ∧ (submittedTL [] = [] → q = 0) :=
  ⟨fun p hp => absurd hp (List.not_mem_nil p),
   min_latency_finite "s" 0 4 [] [] ⟨false, false⟩
     (fun p hp => absurd hp (List.not_mem_nil p))⟩

/-- C2 counterexample: a session whose only turn is interrupted (the
spec's own §8 scenario).  The filtered set for `total_latency` is
empty, yet the final state after `end()` has no `avg_total_latency`
field at all — the key written by the averaging pass does not exist, so
it does not "equal exactly 0"; only the distinct, never-updated
`avg_latency` key from `start()` holds 0. -/
theorem avg_total_latency_key_missing :
    (((MetricsLogger.init.start_session "s" 0).add_turn_metrics
        { total_latency := some 5, interrupted := true } 1).end_session []
        9 ⟨false, false⟩).1.session_data "avg_total_latency" = none ∧
    (((MetricsLogger.init.start_session "s" 0).add_turn_metrics
        { total_latency := some 5, interrupted := true } 1).end_session []
        9 ⟨false, false⟩).1.session_data "avg_latency" = some (.num 0) := by
  constructor <;> decide

/-- C2 (amended): after `end()` (no overlay), each of `avg_eou_delay`,
`avg_ttft`, `avg_ttfb` equals the arithmetic mean of the metric's
strictly positive values over not-interrupted turns, and exactly 0 when
that filtered set is empty.  For `total_latency` the mean is stored
under `avg_total_latency` when the filtered set is nonempty, but when
it is empty that key is absent (not 0): the pre-initialized field is
named `avg_latency`, is never updated, and stays 0. -/
theorem averages_after_end (sid : String) (t0 tEnd : ℚ) (ts : List (Turn × ℚ))
    (env : ExportEnv) :
    (((reach sid t0 ts).end_session [] tEnd env).1.session_data "avg_eou_delay" =
        some (.num (qavg (posVals (validSubmitted ts) Turn.eou_delay)))) ∧
    (((reach sid t0 ts).end_session [] tEnd env).1.session_data "avg_ttft" =
        some (.num (qavg (posVals (validSubmitted ts) Turn.ttft)))) ∧
    (((reach sid t0 ts).end_session [] tEnd env).1.session_data "avg_ttfb" =
        some (.num (qavg (posVals (validSubmitted ts) Turn.ttfb)))) ∧
    (((reach sid t0 ts).end_session [] tEnd env).1.session_data "avg_total_latency" =
      (if posVals (validSubmitted ts) Turn.total_latency = [] then none
       else some (.num (qavg (posVals (validSubmitted ts) Turn.total_latency))))) ∧
    ((reach sid t0 ts).end_session [] tEnd env).1.session_data "avg_latency" =
      some (.num 0) := by
  have h := inv_reach sid t0 ts
  have hpre : ∀ k : String, k ≠ "end_time" → k ≠ "duration" →
      k ≠ "total_turns" → k ≠ "successful_turns" → k ≠ "interrupted_turns" →
      k ≠ "max_latency" → k ≠ "min_latency" → k ≠ "high_latency_turns" →
      endPre (reach sid t0 ts) tEnd [] k = initSD sid t0 k := by
    intro k h1 h2 h3 h4 h5 h6 h7 h8
    rw [endPre_lookup (reach sid t0 ts) tEnd [] k rfl h1 h2]
    exact h.frame k h3 h4 h5 h6 h7 h8
  rw [end_session_eq _ _ _ _ t0 h.sst]
  simp only []
  refine ⟨?_, ?_, ?_, ?_, ?_⟩
  · rw [minfix_other _ _ (by decide)]
    by_cases ht : (reach sid t0 ts).turn_metrics = []
    · rw [if_pos ht]
      rw [hpre _ (by decide) (by decide) (by decide) (by decide) (by decide) (by decide)
        (by decide) (by decide)]
      rw [h.tm] at ht
      rw [List.map_eq_nil_iff.mp ht]
      rfl
    · rw [if_neg ht]
      rw [h.tm, calc_lookup_eou, posVals_valid_stamped sid ts Turn.eou_delay (fun _ => rfl),
        hpre _ (by decide) (by decide) (by decide) (by decide) (by decide) (by decide)
          (by decide) (by decide)]
      by_cases he : posVals (validSubmitted ts) Turn.eou_delay = []
      · rw [if_pos he, he]
        rfl
      · rw [if_neg he]
  · rw [minfix_other _ _ (by decide)]
    by_cases ht : (reach sid t0 ts).turn_metrics = []
    · rw [if_pos ht]
      rw [hpre _ (by decide) (by decide) (by decide) (by decide) (by decide) (by decide)
        (by decide) (by decide)]
      rw [h.tm] at ht
      rw [List.map_eq_nil_iff.mp ht]
      rfl
    · rw [if_neg ht]
      rw [h.tm, calc_lookup_ttft, posVals_valid_stamped sid ts Turn.ttft (fun _ => rfl),
        hpre _ (by decide) (by decide) (by decide) (by decide) (by decide) (by decide)
          (by decide) (by decide)]
      by_cases he : posVals (validSubmitted ts) Turn.ttft = []
      · rw [if_pos he, he]
        rfl
      · rw [if_neg he]
  · rw [minfix_other _ _ (by decide)]
    by_cases ht : (reach sid t0 ts).turn_metrics = []
    · rw [if_pos ht]
      rw [hpre _ (by decide) (by decide) (by decide) (by decide) (by decide) (by decide)
        (by decide) (by decide)]
      rw [h.tm] at ht
      rw [List.map_eq_nil_iff.mp ht]
      rfl
    · rw [if_neg ht]
      rw [h.tm, calc_lookup_ttfb, posVals_valid_stamped sid ts Turn.ttfb (fun _ => rfl),
        hpre _ (by decide) (by decide) (by decide) (by decide) (by decide) (by decide)
          (by decide) (by decide)]
      by_cases he : posVals (validSubmitted ts) Turn.ttfb = []
      · rw [if_pos he, he]
        rfl
      · rw [if_neg he]
  · rw [minfix_other _ _ (by decide)]
    by_cases ht : (reach sid t0 ts).turn_metrics = []
    · rw [if_pos ht]
      rw [hpre _ (by decide) (by decide) (by decide) (by decide) (by decide) (by decide)
        (by decide) (by decide)]
      rw [h.tm] at ht
      rw [List.map_eq_nil_iff.mp ht]
      rfl
    · rw [if_neg ht]
      rw [h.tm, calc_lookup_tl,
        posVals_valid_stamped sid ts Turn.total_latency (fun _ => rfl),
        hpre _ (by decide) (by decide) (by decide) (by decide) (by decide) (by decide)
          (by decide) (by decide)]
      by_cases he : posVals (validSubmitted ts) Turn.total_latency = []
      · rw [if_pos he, if_pos he]
        rfl
      · rw [if_neg he, if_neg he]
  · rw [minfix_other _ _ (by decide)]
    by_cases ht : (reach sid t0 ts).turn_metrics = []
    · rw [if_pos ht]
      rw [hpre _ (by decide) (by decide) (by decide) (by decide) (by decide) (by decide)
        (by decide) (by decide)]
      rfl
    · rw [if_neg ht]
      rw [calc_frame _ _ _ (by decide) (by decide) (by decide) (by decide),
        hpre _ (by decide) (by decide) (by decide) (by decide) (by decide) (by decide)
          (by decide) (by decide)]
      rfl

theorem qmin_guard (l : List ℚ) : (if l = [] then (0 : ℚ) else qmin l) = qmin l := by
  split_ifs with hE
  · rw [hE]
    rfl
  · rfl

theorem qmax_guard (l : List ℚ) : (if l = [] then (0 : ℚ) else qmax l) = qmax l := by
  split_ifs with hE
  · rw [hE]
    rfl
  · rfl

/-- The Latency Analysis sheet, fully evaluated, when at least one
not-interrupted turn has strictly positive `total_latency`. -/
theorem latencyAnalysis_spec (turns : List Turn)
    (hlat : posVals (turns.filter (fun t => !t.interrupted)) Turn.total_latency ≠ []) :
    latencyAnalysis turns = some
      [ { metricName := "Total Latency"
          average := some (qavg (posVals (turns.filter (fun t => !t.interrupted)) Turn.total_latency))
          minVal := some (qmin (posVals (turns.filter (fun t => !t.interrupted)) Turn.total_latency))
          maxVal := some (qmax (posVals (turns.filter (fun t => !t.interrupted)) Turn.total_latency))
          count := (posVals (turns.filter (fun t => !t.interrupted)) Turn.total_latency).length },
        { metricName := "EOU Delay"
          average := some (qavg (posVals (turns.filter (fun t => !t.interrupted)) Turn.eou_delay))
          minVal := some (qmin (posVals (turns.filter (fun t => !t.interrupted)) Turn.eou_delay))
          maxVal := some (qmax (posVals (turns.filter (fun t => !t.interrupted)) Turn.eou_delay))
          count := (posVals (turns.filter (fun t => !t.interrupted)) Turn.eou_delay).length },
        { metricName := "TTFT"
          average := some (qavg (posVals (turns.filter (fun t => !t.interrupted)) Turn.ttft))
          minVal := some (qmin (posVals (turns.filter (fun t => !t.interrupted)) Turn.ttft))
          maxVal := some (qmax (posVals (turns.filter (fun t => !t.interrupted)) Turn.ttft))
          count := (posVals (turns.filter (fun t => !t.interrupted)) Turn.ttft).length },
        { metricName := "TTFB"
          average := some (qavg (posVals (turns.filter (fun t => !t.interrupted)) Turn.ttfb))
          minVal := some (qmin (posVals (turns.filter (fun t => !t.interrupted)) Turn.ttfb))
          maxVal := some (qmax (posVals (turns.filter (fun t => !t.interrupted)) Turn.ttfb))
          count := (posVals (turns.filter (fun t => !t.interrupted)) Turn.ttfb).length },
        { metricName := "Turns > 2s latency"
          count := ((posVals (turns.filter (fun t => !t.interrupted)) Turn.total_latency).filter
            (fun l => decide ((2 : ℚ) < l))).length },
        { metricName := "Turns > 1s latency"
          count := ((posVals (turns.filter (fun t => !t.interrupted)) Turn.total_latency).filter
            (fun l => decide ((1 : ℚ) < l))).length },
        { metricName := "Turns < 0.5s latency"
          count := ((posVals (turns.filter (fun t => !t.interrupted)) Turn.total_latency).filter
            (fun l => decide (l < (1/2 : ℚ)))).length } ] := by
  have hvalid : turns.filter (fun t => !t.interrupted) ≠ [] := by
    intro hE
    rw [hE] at hlat
    exact hlat rfl
  have hturns : turns ≠ [] := by
    intro hE
    rw [hE] at hvalid
    exact hvalid rfl
  unfold latencyAnalysis
  rw [if_neg hturns, if_neg hvalid]
  simp only []
  rw [if_neg hlat]
  rw [qmin_guard, qmax_guard, qmin_guard, qmax_guard, qmin_guard, qmax_guard]
  have havg : ∀ l : List ℚ, l ≠ [] → l.sum / (l.length : ℚ) = qavg l := by
    intro l hl
    rw [qavg, if_neg hl]
  rw [havg _ hlat]
  simp [qavg]

/-- C7 (amended): when at least one not-interrupted turn has strictly
positive `total_latency`, the exported Latency Analysis table holds
exactly the four per-metric rows (average, min, max, count over the
not-interrupted, metric-positive filter; the other three metrics report
0 for average/min/max when their filtered set is empty) followed by the
three threshold rows computed over the Total Latency series only.
Without such a turn the four metric rows are omitted. -/
theorem latency_analysis_rows (sid : String) (t0 tEnd : ℚ) (ts : List (Turn × ℚ))
    (ov : List (String × PyVal))
    (hlat : posVals (validSubmitted ts) Turn.total_latency ≠ []) :
    ∃ f : ExcelFile,
      ((reach sid t0 ts).end_session ov tEnd ⟨false, false⟩).2.excel = some f ∧
      f.analysis = some
        [ { metricName := "Total Latency"
            average := some (qavg (posVals (validSubmitted ts) Turn.total_latency))
            minVal := some (qmin (posVals (validSubmitted ts) Turn.total_latency))
            maxVal := some (qmax (posVals (validSubmitted ts) Turn.total_latency))
            count := (posVals (validSubmitted ts) Turn.total_latency).length },
          { metricName := "EOU Delay"
            average := some (qavg (posVals (validSubmitted ts) Turn.eou_delay))
            minVal := some (qmin (posVals (validSubmitted ts) Turn.eou_delay))
            maxVal := some (qmax (posVals (validSubmitted ts) Turn.eou_delay))
            count := (posVals (validSubmitted ts) Turn.eou_delay).length },
          { metricName := "TTFT"
            average := some (qavg (posVals (validSubmitted ts) Turn.ttft))
            minVal := some (qmin (posVals (validSubmitted ts) Turn.ttft))
            maxVal := some (qmax (posVals (validSubmitted ts) Turn.ttft))
            count := (posVals (validSubmitted ts) Turn.ttft).length },
          { metricName := "TTFB"
            average := some (qavg (posVals (validSubmitted ts) Turn.ttfb))
            minVal := some (qmin (posVals (validSubmitted ts) Turn.ttfb))
            maxVal := some (qmax (posVals (validSubmitted ts) Turn.ttfb))
            count := (posVals (validSubmitted ts) Turn.ttfb).length },
          { metricName := "Turns > 2s latency"
            count := ((posVals (validSubmitted ts) Turn.total_latency).filter
              (fun l => decide ((2 : ℚ) < l))).length },
          { metricName := "Turns > 1s latency"
            count := ((posVals (validSubmitted ts) Turn.total_latency).filter
              (fun l => decide ((1 : ℚ) < l))).length },
          { metricName := "Turns < 0.5s latency"
            count := ((posVals (validSubmitted ts) Turn.total_latency).filter
              (fun l => decide (l < (1/2 : ℚ)))).length } ] := by
  have h := inv_reach sid t0 ts
  rw [end_session_eq _ _ _ _ t0 h.sst]
  simp only []
  rw [h.tm]
  refine ⟨_, rfl, ?_⟩
  have hstamp : posVals ((ts.map (stamp sid)).filter (fun t => !t.interrupted))
      Turn.total_latency ≠ [] := by
    rw [posVals_valid_stamped sid ts Turn.total_latency (fun _ => rfl)]
    exact hlat
  rw [latencyAnalysis_spec (ts.map (stamp sid)) hstamp,
    posVals_valid_stamped sid ts Turn.total_latency (fun _ => rfl),
    posVals_valid_stamped sid ts Turn.eou_delay (fun _ => rfl),
    posVals_valid_stamped sid ts Turn.ttft (fun _ => rfl),
    posVals_valid_stamped sid ts Turn.ttfb (fun _ => rfl)]

theorem latency_analysis_rows_witness :
    (posVals (validSubmitted [({ total_latency := some 3 }, (1 : ℚ))]) Turn.total_latency
      ≠ []) ∧
    ∃ f : ExcelFile,
      ((reach "s" 0 [({ total_latency := some 3 }, 1)]).end_session [] 9
          ⟨false, false⟩).2.excel = some f ∧
      f.analysis = some
        [ { metricName := "Total Latency"
            average := some (qavg (posVals (validSubmitted
              [({ total_latency := some 3 }, 1)]) Turn.total_latency))
            minVal := some (qmin (posVals (validSubmitted
              [({ total_latency := some 3 }, 1)]) Turn.total_latency))
            maxVal := some (qmax (posVals (validSubmitted
              [({ total_latency := some 3 }, 1)]) Turn.total_latency))
            count := (posVals (validSubmitted
              [({ total_latency := some 3 }, 1)]) Turn.total_latency).length },
          { metricName := "EOU Delay"
            average := some (qavg (posVals (validSubmitted
              [({ total_latency := some 3 }, 1)]) Turn.eou_delay))
            minVal := some (qmin (posVals (validSubmitted
              [({ total_latency := some 3 }, 1)]) Turn.eou_delay))
            maxVal := some (qmax (posVals (validSubmitted
              [({ total_latency := some 3 }, 1)]) Turn.eou_delay))
            count := (posVals (validSubmitted
              [({ total_latency := some 3 }, 1)]) Turn.eou_delay).length },
          { metricName := "TTFT"
            average := some (qavg (posVals (validSubmitted
              [({ total_latency := some 3 }, 1)]) Turn.ttft))
            minVal := some (qmin (posVals (validSubmitted
              [({ total_latency := some 3 }, 1)]) Turn.ttft))
            maxVal := some (qmax (posVals (validSubmitted
              [({ total_latency := some 3 }, 1)]) Turn.ttft))
            count := (posVals (validSubmitted
              [({ total_latency := some 3 }, 1)]) Turn.ttft).length },
          { metricName := "TTFB"
            average := some (qavg (posVals (validSubmitted
              [({ total_latency := some 3 }, 1)]) Turn.ttfb))
            minVal := some (qmin (posVals (validSubmitted
              [({ total_latency := some 3 }, 1)]) Turn.ttfb))
            maxVal := some (qmax (posVals (validSubmitted
              [({ total_latency := some 3 }, 1)]) Turn.ttfb))
            count := (posVals (validSubmitted
              [({ total_latency := some 3 }, 1)]) Turn.ttfb).length },
          { metricName := "Turns > 2s latency"
            count := ((posVals (validSubmitted
              [({ total_latency := some 3 }, 1)]) Turn.total_latency).filter
              (fun l => decide ((2 : ℚ) < l))).length },
          { metricName := "Turns > 1s latency"
            count := ((posVals (validSubmitted
              [({ total_latency := some 3 }, 1)]) Turn.total_latency).filter
              (fun l => decide ((1 : ℚ) < l))).length },
          { metricName := "Turns < 0.5s latency"
            count := ((posVals (validSubmitted
              [({ total_latency := some 3 }, 1)]) Turn.total_latency).filter
              (fun l => decide (l < (1/2 : ℚ)))).length } ] :=
  ⟨by decide,
   latency_analysis_rows "s" 0 9 [({ total_latency := some 3 }, 1)] [] (by decide)⟩

/-- C7 counterexample: a session whose single not-interrupted turn has a
positive `eou_delay` but no `total_latency`.  The exported Latency
Analysis table holds only the three threshold rows — there is no row
for EOU Delay (nor for the other metrics), contradicting the claim that
the table always contains a row for each of the four metrics. -/
theorem latency_analysis_missing_metric_rows :
    ((((MetricsLogger.init.start_session "s" 0).add_turn_metrics
        { eou_delay := some 1 } 2).end_session [] 9 ⟨false, false⟩).2.excel.map
      (fun f => f.analysis)) =
      some (some
        [{ metricName := "Turns > 2s latency", count := 0 },
         { metricName := "Turns > 1s latency", count := 0 },
         { metricName := "Turns < 0.5s latency", count := 0 }]) := by
  decide

/-- C9: with a fault-free export, the Turn Details sheet of the
artifact produced by `end()` holds exactly one row per turn admitted
since `start()`, in admission order (row i is turn i as stamped on
admission), so re-reading it yields the admitted sequence. -/
theorem turn_details_roundtrip (sid : String) (t0 tEnd : ℚ) (ts : List (Turn × ℚ))
    (ov : List (String × PyVal)) :
    ∃ f : ExcelFile,
      ((reach sid t0 ts).end_session ov tEnd ⟨false, false⟩).2.excel = some f ∧
      f.turn_sheet.getD [] = ts.map (stamp sid) ∧
      (f.turn_sheet.getD []).length = ts.length := by
  have h := inv_reach sid t0 ts
  rw [end_session_eq _ _ _ _ t0 h.sst]
  simp only []
  rw [h.tm]
  refine ⟨_, rfl, ?_, ?_⟩
  · by_cases hts : ts.map (stamp sid) = []
    · show (if ts.map (stamp sid) = [] then none else some (ts.map (stamp sid))).getD [] = _
      rw [if_pos hts, hts]
      rfl
    · show (if ts.map (stamp sid) = [] then none else some (ts.map (stamp sid))).getD [] = _
      rw [if_neg hts]
      rfl
  · by_cases hts : ts.map (stamp sid) = []
    · show ((if ts.map (stamp sid) = [] then none else some (ts.map (stamp sid))).getD
        []).length = _
      rw [if_pos hts]
      rw [List.map_eq_nil_iff.mp hts]
      rfl
    · show ((if ts.map (stamp sid) = [] then none else some (ts.map (stamp sid))).getD
        []).length = _
      rw [if_neg hts]
      exact List.length_map ts (stamp sid)

/-- C8 (amended): when the primary structured export fails, `end()`
still returns (the export path is a total function whose exceptions are
caught): the fallback writes the Session Summary artifact with its
single row and — when at least one turn was admitted — the Turn Details
artifact with one row per admitted turn; with no admitted turns no Turn
Details artifact is produced.  A failure of the fallback itself yields
no artifacts at all but is likewise swallowed. -/
theorem export_fallback (sid : String) (t0 tEnd : ℚ) (ts : List (Turn × ℚ))
    (ov : List (String × PyVal)) (hts : ts ≠ []) :
    (∃ c : CsvArtifacts,
      ((reach sid t0 ts).end_session ov tEnd ⟨true, false⟩).2.csv = some c ∧
      ((reach sid t0 ts).end_session ov tEnd ⟨true, false⟩).2.excel = none ∧
      c.session_summary.length = 1 ∧
      c.turn_details = some (ts.map (stamp sid)) ∧
      (c.turn_details.getD []).length = ts.length) ∧
    ((reach sid t0 ts).end_session ov tEnd ⟨true, true⟩).2.excel = none ∧
    ((reach sid t0 ts).end_session ov tEnd ⟨true, true⟩).2.csv = none := by
  have h := inv_reach sid t0 ts
  have hmap : ts.map (stamp sid) ≠ [] := by
    intro hE
    exact hts (List.map_eq_nil_iff.mp hE)
  refine ⟨?_, ?_, ?_⟩
  · rw [end_session_eq _ _ _ _ t0 h.sst]
    simp only []
    rw [h.tm]
    refine ⟨_, rfl, rfl, rfl, ?_, ?_⟩
    · show (if ts.map (stamp sid) = [] then none else some (ts.map (stamp sid))) = _
      rw [if_neg hmap]
    · show ((if ts.map (stamp sid) = [] then none else some (ts.map (stamp sid))).getD
        []).length = _
      rw [if_neg hmap]
      exact List.length_map ts (stamp sid)
  · rw [end_session_eq _ _ _ _ t0 h.sst]
    rfl
  · rw [end_session_eq _ _ _ _ t0 h.sst]
    rfl

theorem export_fallback_witness :
    (([({ total_latency := some 1 }, 5)] : List (Turn × ℚ)) ≠ []) ∧
    ((∃ c : CsvArtifacts,
      ((reach "s" 0 [({ total_latency := some 1 }, 5)]).end_session [] 9
          ⟨true, false⟩).2.csv = some c ∧
      ((reach "s" 0 [({ total_latency := some 1 }, 5)]).end_session [] 9
          ⟨true, false⟩).2.excel = none ∧
      c.session_summary.length = 1 ∧
      c.turn_details = some ([({ total_latency := some 1 }, (5 : ℚ))].map (stamp "s")) ∧
      (c.turn_details.getD []).length = 1) ∧
    ((reach "s" 0 [({ total_latency := some 1 }, 5)]).end_session [] 9
        ⟨true, true⟩).2.excel = none ∧
    ((reach "s" 0 [({ total_latency := some 1 }, 5)]).end_session [] 9
        ⟨true, true⟩).2.csv = none) :=
  ⟨by decide,
   export_fallback "s" 0 9 [({ total_latency := some 1 }, 5)] [] (by decide)⟩

/-- C8 counterexample: for a session with zero admitted turns and a
failing primary export, the fallback writes only the Session Summary
artifact — no Turn Details artifact exists, so "falls back to writing
two plain delimited-text artifacts" fails for the empty session. -/
theorem fallback_zero_turns :
    (((MetricsLogger.init.start_session "s" 0).end_session [] 3 ⟨true, false⟩).2.csv.map
        (fun c => c.turn_details)) = some none ∧
    (((MetricsLogger.init.start_session "s" 0).end_session [] 3 ⟨true, false⟩).2.csv.map
        (fun c => c.session_summary.length)) = some 1 := by
  constructor <;> rfl

end VoiceMetrics
